import Mathlib

/-!
Verification of the course-equivalency case tracker.

The definitions below are a shallow embedding of the repository's data
model and operations: the in-memory case store (`frontend/src/services/store.js`),
the mock-backed API layer (`submitNewCase`, `submitAdditionalInfo`,
`submitReviewerDecision`), the fetch-backed read mappers (`mapCaseOut`,
`mapCaseDetail` from `frontend/src/services/api.js`), the reviewer action
panel's guards (`ReviewerActionPanel.jsx`), the upload validation
(`StudentNewCase.jsx`, `StudentCaseView.jsx`), and the relational schema
(`Database/db_schema.sql`).  Operations whose application code lives in the
absent FastAPI backend (`recordChunk`, `recordEvidence`, extraction-run
creation) are modelled from the spec, as marked on each such definition.
-/

namespace CourseEq

/-- A log entry of a case's audit trail (shape of the `logs` entries built in
`store.js` / `api.js`: timestamp, actor, action, message). -/
structure LogEntry where
  timestamp : String
  actor : String
  action : String
  message : String
deriving DecidableEq, Repr

/-- A document record of the mock store (`id`, `name`, `uploaded_at`), as
created by `submitNewCase` and `addDocument`. -/
structure Document where
  id : String
  name : String
  uploaded_at : String
deriving DecidableEq, Repr

/-- A case record of the in-memory store (`frontend/src/services/store.js` /
`mock/data.js`): status is a plain string, `reviewer_comment` is absent
until `setReviewerComment` writes it. -/
structure Case where
  id : String
  student_id : String
  student_name : String
  course_requested : String
  status : String
  documents : List Document
  logs : List LogEntry
  reviewer_comment : Option String
deriving DecidableEq, Repr

/-- `getCaseById` of `store.js`: `cases.find((c) => c.id === caseId) || null`. -/
def getCaseById (cases : List Case) (caseId : String) : Option Case :=
  cases.find? (fun c => c.id == caseId)

/-- The store mutators of `store.js` all run `cases.find(...)` and, when a
case is found, mutate that first match in place; when none is found they do
nothing.  `updateFirst` is that shared shape. -/
def updateFirst (cases : List Case) (caseId : String) (f : Case → Case) : List Case :=
  match cases with
  | [] => []
  | c :: rest => if c.id == caseId then f c :: rest else c :: updateFirst rest caseId f

/-- `updateCaseStatus` of `store.js`: `if (c) c.status = newStatus` — any
string is written, with no transition check and no error. -/
def updateCaseStatus (cases : List Case) (caseId newStatus : String) : List Case :=
  updateFirst cases caseId (fun c => { c with status := newStatus })

/-- `addLogEntry` of `store.js`: `if (c) c.logs.push(entry)`. -/
def addLogEntry (cases : List Case) (caseId : String) (entry : LogEntry) : List Case :=
  updateFirst cases caseId (fun c => { c with logs := c.logs ++ [entry] })

/-- `setReviewerComment` of `store.js`: `if (c) c.reviewer_comment = comment`. -/
def setReviewerComment (cases : List Case) (caseId comment : String) : List Case :=
  updateFirst cases caseId (fun c => { c with reviewer_comment := some comment })

/-- `addDocument` of `store.js`: `if (c) c.documents.push(doc)`. -/
def addDocument (cases : List Case) (caseId : String) (doc : Document) : List Case :=
  updateFirst cases caseId (fun c => { c with documents := c.documents ++ [doc] })

/-- `createCase` of `store.js`: `cases.push(newCase)`. -/
def createCase (cases : List Case) (newCase : Case) : List Case :=
  cases ++ [newCase]

/-- The JS `String(num).padStart(3, "0")` used by `nextCaseId`. -/
def padStart3 (s : String) : String :=
  if s.length ≥ 3 then s else String.mk (List.replicate (3 - s.length) '0') ++ s

/-- `nextCaseId` of `store.js`: the maximum of `parseInt(c.id.replace("CASE-", ""))`
over the store (a non-numeric remainder compares as not-greater, like NaN),
plus one, zero-padded to three digits. -/
def nextCaseId (cases : List Case) : String :=
  let maxNum := cases.foldl
    (fun mx c =>
      match ((c.id.replace "CASE-" "").toNat? : Option Nat) with
      | some num => if num > mx then num else mx
      | none => mx) 0
  "CASE-" ++ padStart3 (toString (maxNum + 1))

/-- An uploaded file as the upload pages see it: only its name matters to the
embedded logic (`f.name`). -/
structure UploadFile where
  name : String
deriving DecidableEq, Repr

/-- The per-file documents `submitNewCase` builds: ids `doc-<caseId>-<i>`
from the file index. -/
def mkCaseDocuments (caseId now : String) (files : List UploadFile) (i : Nat) : List Document :=
  match files with
  | [] => []
  | f :: rest =>
      { id := "doc-" ++ caseId ++ "-" ++ toString i, name := f.name, uploaded_at := now }
        :: mkCaseDocuments caseId now rest (i + 1)

/-- `submitNewCase` of the mock API layer: builds the document list from the
files, creates the case with status `UPLOADED` and one upload log entry, and
pushes it into the store. -/
def submitNewCase (cases : List Case) (studentId studentName courseRequested : String)
    (files : List UploadFile) (now : String) : List Case × Case :=
  let caseId := nextCaseId cases
  let documents := mkCaseDocuments caseId now files 0
  let newCase : Case :=
    { id := caseId
      student_id := studentId
      student_name := studentName
      course_requested := courseRequested
      status := "UPLOADED"
      documents := documents
      logs := [{ timestamp := now, actor := "STUDENT", action := "UPLOAD",
                 message := "Uploaded " ++ toString files.length ++ " document(s) for "
                   ++ courseRequested ++ " equivalency request." }]
      reviewer_comment := none }
  (createCase cases newCase, newCase)

/-- The extra documents `submitAdditionalInfo` adds: ids `doc-<caseId>-extra-<i>`. -/
def mkExtraDocs (caseId now : String) (files : List UploadFile) (i : Nat) : List Document :=
  match files with
  | [] => []
  | f :: rest =>
      { id := "doc-" ++ caseId ++ "-extra-" ++ toString i, name := f.name, uploaded_at := now }
        :: mkExtraDocs caseId now rest (i + 1)

/-- The `files.forEach((f, i) => addDocument(...))` loop of `submitAdditionalInfo`. -/
def addExtraDocuments (cases : List Case) (caseId : String) (files : List UploadFile)
    (now : String) (i : Nat) : List Case :=
  match files with
  | [] => cases
  | f :: rest =>
      addExtraDocuments
        (addDocument cases caseId
          { id := "doc-" ++ caseId ++ "-extra-" ++ toString i, name := f.name, uploaded_at := now })
        caseId rest now (i + 1)

/-- `submitAdditionalInfo` of the mock API layer: add each file as a document,
log the upload, flip the status to `EXTRACTING` (the comment in the source
says the backend would re-run extraction), log the change, and return
`getCaseById`. -/
def submitAdditionalInfo (cases : List Case) (caseId : String) (files : List UploadFile)
    (now now1 : String) : List Case × Option Case :=
  let cases1 := addExtraDocuments cases caseId files now 0
  let cases2 := addLogEntry cases1 caseId
    { timestamp := now, actor := "STUDENT", action := "UPLOAD",
      message := "Submitted " ++ toString files.length ++ " additional document(s)." }
  let cases3 := updateCaseStatus cases2 caseId "EXTRACTING"
  let cases4 := addLogEntry cases3 caseId
    { timestamp := now1, actor := "AGENT", action := "STATUS_CHANGE",
      message := "Case status changed to EXTRACTING. Re-evaluating with new documents." }
  (cases4, getCaseById cases4 caseId)

/-- The reviewer log message of `submitReviewerDecision` (comment appended
when present; JS treats the empty string as absent). -/
def reviewerLogMessage (isRequestInfo : Bool) (act comment : String) : String :=
  if isRequestInfo then
    "Reviewer requested additional information. Comment: " ++ comment
  else if comment ≠ "" then
    "Reviewer " ++ act.toLower ++ "d. Comment: " ++ comment
  else
    "Reviewer " ++ act.toLower ++ "d."

/-- `submitReviewerDecision` of the mock API layer: log the reviewer entry,
store the comment when non-empty, set the status to `NEEDS_INFO` for
`REQUEST_INFO` and `REVIEWED` otherwise, log the status change, and return
`getCaseById`.  No status-based rejection of any kind is performed. -/
def submitReviewerDecision (cases : List Case) (caseId act comment now now1 : String) :
    List Case × Option Case :=
  let isRequestInfo := act == "REQUEST_INFO"
  let cases1 := addLogEntry cases caseId
    { timestamp := now, actor := "REVIEWER", action := act.toUpper,
      message := reviewerLogMessage isRequestInfo act comment }
  let cases2 := if comment ≠ "" then setReviewerComment cases1 caseId comment else cases1
  let newStatus := if isRequestInfo then "NEEDS_INFO" else "REVIEWED"
  let cases3 := updateCaseStatus cases2 caseId newStatus
  let cases4 := addLogEntry cases3 caseId
    { timestamp := now1, actor := "AGENT", action := "STATUS_CHANGE",
      message := if isRequestInfo then "Case status changed to NEEDS_INFO."
                 else "Case status changed to REVIEWED." }
  (cases4, getCaseById cases4 caseId)

/-- `isDisabled` of `ReviewerActionPanel.jsx`: the panel's buttons are
disabled once the shown status is `REVIEWED`, `APPROVED` or `DENIED`, or
after a decision was confirmed in this session. -/
def isDisabled (currentStatus : String) (confirmed : Bool) : Bool :=
  currentStatus == "REVIEWED" || currentStatus == "APPROVED"
    || currentStatus == "DENIED" || confirmed

/-- Outcome of confirming a reviewer action: either the comment-required
rejection (state untouched, carried through unchanged) or the action ran. -/
inductive ReviewOutcome where
  | commentRequired (cases : List Case)
  | acted (cases : List Case) (result : Option Case)
deriving DecidableEq, Repr

/-- `handleConfirm` of `ReviewerActionPanel.jsx` composed with the page's
`handleAction`: a `REQUEST_INFO` whose comment trims to empty is rejected
before anything runs; otherwise `submitReviewerDecision` runs. -/
def confirmReviewerAction (cases : List Case) (caseId selectedAction comment now now1 : String) :
    ReviewOutcome :=
  if selectedAction == "REQUEST_INFO" && comment.trim == "" then
    ReviewOutcome.commentRequired cases
  else
    let r := submitReviewerDecision cases caseId selectedAction comment now now1
    ReviewOutcome.acted r.1 r.2

/-- A case row as the fetch-backed `api.js` receives it from the backend
(`c.caseId`, `c.studentId`, ..., `c.status`, timestamps). -/
structure BackendCase where
  caseId : String
  studentId : String
  studentName : String
  courseRequested : String
  status : String
  createdAt : String
  updatedAt : String
deriving DecidableEq, Repr

/-- The mapped case list item `mapCaseOut` returns. -/
structure CaseOut where
  id : String
  studentId : String
  studentName : String
  courseRequested : String
  status : String
  createdAt : String
  updatedAt : String
deriving DecidableEq, Repr

/-- `mapCaseOut` of `frontend/src/services/api.js` (the fetch-backed copy):
note the read-time normalization of the misspelled `AI_RECOMMMENDATION`. -/
def mapCaseOut (c : BackendCase) : CaseOut :=
  { id := c.caseId
    studentId := c.studentId
    studentName := c.studentName
    courseRequested := c.courseRequested
    status := if c.status == "AI_RECOMMMENDATION" then "AI_RECOMMENDATION" else c.status
    createdAt := c.createdAt
    updatedAt := c.updatedAt }

/-- A backend document row (`d.docId`, `d.filename`, `d.createdAt`). -/
structure BackendDoc where
  docId : String
  filename : String
  createdAt : String
deriving DecidableEq, Repr

/-- The mapped document `mapDocument` returns. -/
structure DocumentOut where
  id : String
  name : String
  uploadedAt : String
deriving DecidableEq, Repr

/-- `mapDocument` of `api.js`. -/
def mapDocument (d : BackendDoc) : DocumentOut :=
  { id := d.docId, name := d.filename, uploadedAt := d.createdAt }

/-- A run entry of the backend audit log (`createdAt`, `status`,
`errorMessage`); the absent error message is the empty string, matching the
JS falsy test `r.errorMessage ? ... : ...`. -/
structure RunRec where
  createdAt : String
  status : String
  errorMessage : String
deriving DecidableEq, Repr

/-- A review action of the backend audit log (`createdAt`, `action`,
`comment`); an absent comment is the empty string, matching the JS falsy
tests on `a.comment`. -/
structure ReviewActionRec where
  createdAt : String
  action : String
  comment : String
deriving DecidableEq, Repr

/-- The backend audit log (`extractionRuns`, `decisionRuns`, `reviewActions`). -/
structure AuditLog where
  extractionRuns : List RunRec
  decisionRuns : List RunRec
  reviewActions : List ReviewActionRec
deriving DecidableEq, Repr

/-- The run log message of `buildLogs`: the error message is appended only
when non-empty (`r.errorMessage ? ": " + r.errorMessage : ""`). -/
def runLogMessage (kind : String) (r : RunRec) : String :=
  kind ++ " run " ++ r.status ++ (if r.errorMessage ≠ "" then ": " ++ r.errorMessage else "")

/-- `buildLogs` of `api.js`: extraction-run entries, then decision-run
entries, then reviewer entries, in the source's push order. -/
def buildLogs (auditLog : Option AuditLog) : List LogEntry :=
  let ex := (auditLog.map AuditLog.extractionRuns).getD []
  let de := (auditLog.map AuditLog.decisionRuns).getD []
  let ra := (auditLog.map AuditLog.reviewActions).getD []
  ex.map (fun r => { timestamp := r.createdAt, actor := "AGENT", action := "EXTRACTION",
                     message := runLogMessage "Extraction" r })
  ++ de.map (fun r => { timestamp := r.createdAt, actor := "AGENT", action := "DECISION",
                        message := runLogMessage "Decision" r })
  ++ ra.map (fun a => { timestamp := a.createdAt, actor := "REVIEWER", action := a.action.toUpper,
                        message := if a.comment ≠ "" then a.comment
                                   else "Reviewer action: " ++ a.action })

/-- The payload `fetchCase` hands to `mapCaseDetail`. -/
structure CaseDetailInput where
  theCase : BackendCase
  documents : List BackendDoc
  decisionPacket : Option String
  auditLog : Option AuditLog
deriving DecidableEq, Repr

/-- The mapped case detail `mapCaseDetail` returns. -/
structure CaseDetail where
  id : String
  studentId : String
  studentName : String
  courseRequested : String
  status : String
  createdAt : String
  updatedAt : String
  documents : List DocumentOut
  decisionPacket : Option String
  logs : List LogEntry
  reviewerComment : Option String
  reviewerDecision : Option String
  reviewerDecisionComment : Option String
deriving DecidableEq, Repr

/-- The decision test of `mapCaseDetail`: `a.action === "approve" || a.action === "deny"`. -/
def isDecisionAction (a : ReviewActionRec) : Bool :=
  a.action == "approve" || a.action == "deny"

/-- `[...reviewActions].reverse().find(...)` of `mapCaseDetail`: the last
entry of the array, in array (insertion) order, satisfying the test. -/
def latestMatching (p : ReviewActionRec → Bool) (reviewActions : List ReviewActionRec) :
    Option ReviewActionRec :=
  reviewActions.reverse.find? p

/-- The JS `x || null` on an optional string field, where the empty string is
falsy. -/
def orNull (s : String) : Option String :=
  if s ≠ "" then some s else none

/-- `mapCaseDetail` of `frontend/src/services/api.js` (the fetch-backed copy):
derives the display status `APPROVED`/`DENIED` for a `REVIEWED` case from the
last approve-or-deny review action, normalizes the misspelled
`AI_RECOMMMENDATION`, and surfaces the latest `request_info` comment. -/
def mapCaseDetail (data : CaseDetailInput) : CaseDetail :=
  let c := data.theCase
  let reviewActions := (data.auditLog.map AuditLog.reviewActions).getD []
  let latestInfoRequest := latestMatching (fun a => a.action == "request_info") reviewActions
  let latestDecision := latestMatching isDecisionAction reviewActions
  let d0 := match latestDecision with
    | some a =>
        if c.status == "REVIEWED" then
          (if a.action == "approve" then "APPROVED" else "DENIED")
        else c.status
    | none => c.status
  let displayStatus := if d0 == "AI_RECOMMMENDATION" then "AI_RECOMMENDATION" else d0
  { id := c.caseId
    studentId := c.studentId
    studentName := c.studentName
    courseRequested := c.courseRequested
    status := displayStatus
    createdAt := c.createdAt
    updatedAt := c.updatedAt
    documents := data.documents.map mapDocument
    decisionPacket := data.decisionPacket
    logs := buildLogs data.auditLog
    reviewerComment := match latestInfoRequest with
      | some a => orNull a.comment
      | none => none
    reviewerDecision := match latestDecision with
      | some a => orNull a.action
      | none => none
    reviewerDecisionComment := match latestDecision with
      | some a => orNull a.comment
      | none => none }

/-- The `CHECK (status IN (...))` constraint on `requests.status` in
`Database/db_schema.sql`: exactly the seven lowercase status spellings. -/
def requestsStatusCheck (s : String) : Bool :=
  s == "uploaded" || s == "extracting" || s == "ready_for_decision" || s == "needs_info"
    || s == "ai_recommendation" || s == "review_pending" || s == "reviewed"

/-- The closed seven-state status set named by the spec (spec-words
reference, for comparison against the code). -/
def specClosedStatus (s : String) : Bool :=
  s == "UPLOADED" || s == "EXTRACTING" || s == "READY_FOR_DECISION"
    || s == "AI_RECOMMENDATION" || s == "REVIEW_PENDING" || s == "NEEDS_INFO"
    || s == "REVIEWED"

/-- The transition table of the spec (spec-words reference, for comparison
against the code): the edges a status change is allowed to follow. -/
def specAllowedTransition (fromStatus toStatus : String) : Bool :=
  (fromStatus == "UPLOADED" && toStatus == "EXTRACTING")
    || (fromStatus == "EXTRACTING" && toStatus == "READY_FOR_DECISION")
    || (fromStatus == "READY_FOR_DECISION"
          && (toStatus == "AI_RECOMMENDATION" || toStatus == "NEEDS_INFO"))
    || (fromStatus == "AI_RECOMMENDATION" && toStatus == "REVIEW_PENDING")
    || (fromStatus == "REVIEW_PENDING" && (toStatus == "REVIEWED" || toStatus == "NEEDS_INFO"))
    || (fromStatus == "NEEDS_INFO" && toStatus == "EXTRACTING")

/-- The latest-approve-or-deny lookup as the spec words it (spec-words
reference): scan the actions in creation order and keep the last entry whose
action is approve or deny. -/
def specLastDecision (reviewActions : List ReviewActionRec) : Option ReviewActionRec :=
  reviewActions.foldl (fun acc a => if isDecisionAction a then some a else acc) none

/-- The (id, status) pairs of the seed data `frontend/src/mock/data.js`
(`mockCases`), projected to the two fields the status claims read. -/
def mockCaseStatuses : List (String × String) :=
  [("CASE-001", "REVIEW_PENDING"), ("CASE-002", "NEEDS_INFO"), ("CASE-003", "REVIEWED"),
   ("CASE-004", "REVIEW_PENDING"), ("CASE-005", "UPLOADED"), ("CASE-006", "DECIDED")]

/-- A fresh identifier: one past the largest identifier in use. -/
def freshId (ids : List Nat) : Nat :=
  ids.foldl max 0 + 1

/-- Modelled row of the `citation_chunks` table of `Database/db_schema.sql`:
`chunk_sha_id` is the deterministic content-derived identifier, unique in the
table. -/
structure ChunkRow where
  chunkShaId : String
  docId : String
  runId : Nat
  pageNum : Nat
  spanStart : Nat
  spanEnd : Nat
  snippetText : String
deriving DecidableEq, Repr

/-- Modelled from the spec: the deterministic content-derived chunk
identifier (schema comment: SHA of doc + run + span + text).  The hash is
modelled as an injective tagged encoding of the same inputs, which keeps it
deterministic. -/
def chunkShaId (docId : String) (runId : Nat) (spanStart spanEnd : Nat) (text : String) :
    String :=
  docId ++ "|" ++ toString runId ++ "|" ++ toString spanStart ++ ":" ++ toString spanEnd
    ++ "|" ++ text

/-- Modelled from the spec: `recordChunk(document, run, page, span, text)`,
whose application code lives in the absent FastAPI backend; only the
`citation_chunks` declaration is in the repository.  Idempotent by content
hash: an already-present `chunk_sha_id` returns the same identifier without
inserting a duplicate row. -/
def recordChunk (chunks : List ChunkRow) (docId : String) (runId : Nat)
    (pageNum spanStart spanEnd : Nat) (text : String) : List ChunkRow × String :=
  let cid := chunkShaId docId runId spanStart spanEnd text
  if chunks.any (fun r => r.chunkShaId == cid) then
    (chunks, cid)
  else
    (chunks ++ [{ chunkShaId := cid, docId := docId, runId := runId, pageNum := pageNum,
                  spanStart := spanStart, spanEnd := spanEnd, snippetText := text }], cid)

/-- Modelled row of the `grounded_evidence` table: a structured fact with its
`unknown` flag. -/
structure Evidence where
  evidenceId : Nat
  requestId : String
  runId : Nat
  factType : String
  factValue : Option String
  unknown : Bool
deriving DecidableEq, Repr

/-- Modelled row of the `evidence_citations` join table; the pair is its
primary key. -/
structure EvidenceCitation where
  evidenceId : Nat
  chunkId : String
deriving DecidableEq, Repr

/-- The evidence store: `grounded_evidence` plus `evidence_citations`. -/
structure EvidenceStore where
  evidence : List Evidence
  citations : List EvidenceCitation
deriving DecidableEq, Repr

/-- The chunk ids linked to one evidence item through `evidence_citations`. -/
def citationsFor (st : EvidenceStore) (evidenceId : Nat) : List String :=
  (st.citations.filter (fun ec => ec.evidenceId == evidenceId)).map EvidenceCitation.chunkId

/-- The grounding invariant of the spec: every stored evidence row is either
flagged unknown or linked to at least one citation chunk. -/
def groundedInvariant (st : EvidenceStore) : Prop :=
  ∀ e ∈ st.evidence, e.unknown = true ∨ citationsFor st e.evidenceId ≠ []

/-- Insert one citation pair, respecting the primary-key uniqueness of
`(evidence_id, chunk_uuid)`. -/
def insertCitation (citations : List EvidenceCitation) (p : EvidenceCitation) :
    List EvidenceCitation :=
  if p ∈ citations then citations else citations ++ [p]

/-- Modelled from the spec: `recordEvidence(case, run, factType,
value|unknown, chunkIds[])`, whose application code lives in the absent
FastAPI backend; only the `grounded_evidence` and `evidence_citations`
declarations are in the repository.  Fails with `UngroundedClaim`, persisting
nothing, when `unknown=false` and `chunkIds` is empty; otherwise inserts the
evidence row and its citation links. -/
def recordEvidence (st : EvidenceStore) (requestId : String) (runId : Nat)
    (factType : String) (value : Option String) (unknown : Bool) (chunkIds : List String) :
    Except String (EvidenceStore × Nat) :=
  if !unknown && chunkIds.isEmpty then
    Except.error "UngroundedClaim"
  else
    let eid := freshId (st.evidence.map Evidence.evidenceId)
    let row : Evidence :=
      { evidenceId := eid, requestId := requestId, runId := runId,
        factType := factType, factValue := value, unknown := unknown }
    let citations := chunkIds.foldl
      (fun acc c => insertCitation acc { evidenceId := eid, chunkId := c }) st.citations
    Except.ok ({ evidence := st.evidence ++ [row], citations := citations }, eid)

/-- Modelled row of the `extraction_runs` table (identifier, owning request,
lifecycle status). -/
structure ExtractionRun where
  runId : Nat
  requestId : String
  status : String
deriving DecidableEq, Repr

/-- Modelled from the spec: starting a new extraction run for a case, whose
application code lives in the absent FastAPI backend; `submitAdditionalInfo`
in the repository defers to it (its comment says the backend would re-run
extraction).  A new run record is created queued, never reusing an old one. -/
def startExtractionRun (runs : List ExtractionRun) (caseId : String) :
    ExtractionRun × List ExtractionRun :=
  let r : ExtractionRun :=
    { runId := freshId (runs.map ExtractionRun.runId), requestId := caseId, status := "queued" }
  (r, runs ++ [r])

/-- The `NEEDS_INFO` re-submission path: the in-repository
`submitAdditionalInfo` composed with the modelled backend re-run of
extraction. -/
def resubmitWithNewRun (cases : List Case) (runs : List ExtractionRun) (caseId : String)
    (files : List UploadFile) (now now1 : String) :
    (List Case × Option Case) × (ExtractionRun × List ExtractionRun) :=
  (submitAdditionalInfo cases caseId files now now1, startExtractionRun runs caseId)

/-- The PDF test of both upload pages: `f.name.toLowerCase().endsWith(".pdf")`. -/
def isPdfName (name : String) : Bool :=
  name.toLower.endsWith ".pdf"

/-- `validateAndAddFiles` of `StudentNewCase.jsx`: keep the files whose name
ends in `.pdf`, and set the client-visible error when any file was rejected.
The forEach push-partition of the source builds exactly the two filters. -/
def validateAndAddFiles (fileList : List UploadFile) : List UploadFile × Option String :=
  let valid := fileList.filter (fun f => isPdfName f.name)
  let invalid := fileList.filter (fun f => !isPdfName f.name)
  (valid,
   if invalid.length > 0 then
     some ("Only PDF files are allowed. Rejected: "
       ++ String.intercalate ", " (invalid.map UploadFile.name))
   else none)

/-- The file-input `onChange` of `StudentCaseView.jsx`: when any selected
file is not a PDF, the selection is cleared (`e.target.value = ""`) and the
error shown; otherwise the selection stands. -/
def additionalUploadOnChange (files : List UploadFile) : List UploadFile × Option String :=
  let invalid := files.filter (fun f => !isPdfName f.name)
  if invalid.length > 0 then
    ([], some ("Only PDF files are allowed. Rejected: "
      ++ String.intercalate ", " (invalid.map UploadFile.name)))
  else
    (files, none)

/-! Lemmas about the store's find-first-and-mutate shape. -/

theorem getCaseById_updateFirst (cases : List Case) (caseId : String) (f : Case → Case)
    (hid : ∀ c, (f c).id = c.id) :
    getCaseById (updateFirst cases caseId f) caseId = (getCaseById cases caseId).map f := by
  induction cases with
  | nil => rfl
  | cons c rest ih =>
    cases hx : (c.id == caseId) with
    | true =>
      have hstep : updateFirst (c :: rest) caseId f = f c :: rest := by
        simp [updateFirst, hx]
      have hf : ((fun x : Case => x.id == caseId) (f c)) = true := by
        simp only [hid c]; exact hx
      rw [hstep]
      simp only [getCaseById]
      rw [List.find?_cons_of_pos (p := fun x : Case => x.id == caseId) _ hf,
          List.find?_cons_of_pos (p := fun x : Case => x.id == caseId) _ hx]
      rfl
    | false =>
      have hstep : updateFirst (c :: rest) caseId f = c :: updateFirst rest caseId f := by
        simp [updateFirst, hx]
      rw [hstep]
      simp only [getCaseById] at ih ⊢
      rw [List.find?_cons_of_neg (p := fun x : Case => x.id == caseId) _ (by simp [hx]),
          List.find?_cons_of_neg (p := fun x : Case => x.id == caseId) _ (by simp [hx])]
      exact ih

theorem updateFirst_of_not_found (cases : List Case) (caseId : String) (f : Case → Case)
    (h : getCaseById cases caseId = none) :
    updateFirst cases caseId f = cases := by
  induction cases with
  | nil => rfl
  | cons c rest ih =>
    simp only [getCaseById] at h ih
    cases hx : (c.id == caseId) with
    | true =>
      rw [List.find?_cons_of_pos (p := fun x : Case => x.id == caseId) _ hx] at h
      exact absurd h (by simp)
    | false =>
      rw [List.find?_cons_of_neg (p := fun x : Case => x.id == caseId) _ (by simp [hx])] at h
      simp [updateFirst, hx, ih h]

theorem getCaseById_addExtraDocuments (files : List UploadFile) (cases : List Case)
    (caseId now : String) (i : Nat) :
    getCaseById (addExtraDocuments cases caseId files now i) caseId
      = (getCaseById cases caseId).map
          (fun c => { c with documents := c.documents ++ mkExtraDocs caseId now files i }) := by
  induction files generalizing cases i with
  | nil =>
    cases h : getCaseById cases caseId with
    | none => simp [addExtraDocuments, h]
    | some c => simp [addExtraDocuments, mkExtraDocs, h]
  | cons fl rest ih =>
    rw [addExtraDocuments, ih, addDocument, getCaseById_updateFirst]
    · cases h : getCaseById cases caseId with
      | none => rfl
      | some c => simp [mkExtraDocs, List.append_assoc]
    · exact fun c0 => rfl

theorem addExtraDocuments_of_not_found (files : List UploadFile) (cases : List Case)
    (caseId now : String) (i : Nat) (h : getCaseById cases caseId = none) :
    addExtraDocuments cases caseId files now i = cases := by
  induction files generalizing cases i with
  | nil => rfl
  | cons fl rest ih =>
    rw [addExtraDocuments, addDocument, updateFirst_of_not_found _ _ _ h]
    exact ih cases (i + 1) h

theorem submitAdditionalInfo_found (cases : List Case) (caseId : String)
    (files : List UploadFile) (now now1 : String) (c : Case)
    (h : getCaseById cases caseId = some c) :
    (submitAdditionalInfo cases caseId files now now1).2 =
      some { c with
        status := "EXTRACTING"
        documents := c.documents ++ mkExtraDocs caseId now files 0
        logs := c.logs
          ++ [{ timestamp := now, actor := "STUDENT", action := "UPLOAD",
                message := "Submitted " ++ toString files.length ++ " additional document(s)." }]
          ++ [{ timestamp := now1, actor := "AGENT", action := "STATUS_CHANGE",
                message := "Case status changed to EXTRACTING. Re-evaluating with new documents." }] } := by
  simp only [submitAdditionalInfo, addLogEntry, updateCaseStatus]
  rw [getCaseById_updateFirst, getCaseById_updateFirst, getCaseById_updateFirst,
      getCaseById_addExtraDocuments, h]
  all_goals first
  | (exact fun c0 => rfl)
  | rfl

theorem submitReviewerDecision_found (cases : List Case) (caseId act com now now1 : String)
    (c : Case) (h : getCaseById cases caseId = some c) :
    (submitReviewerDecision cases caseId act com now now1).2 =
      some { c with
        status := if act == "REQUEST_INFO" then "NEEDS_INFO" else "REVIEWED"
        reviewer_comment := if com ≠ "" then some com else c.reviewer_comment
        logs := c.logs
          ++ [{ timestamp := now, actor := "REVIEWER", action := act.toUpper,
                message := reviewerLogMessage (act == "REQUEST_INFO") act com }]
          ++ [{ timestamp := now1, actor := "AGENT", action := "STATUS_CHANGE",
                message := if act == "REQUEST_INFO" then "Case status changed to NEEDS_INFO."
                           else "Case status changed to REVIEWED." }] } := by
  by_cases hcom : com ≠ ""
  · simp only [submitReviewerDecision, addLogEntry, updateCaseStatus, setReviewerComment,
      if_pos hcom]
    rw [getCaseById_updateFirst, getCaseById_updateFirst, getCaseById_updateFirst,
        getCaseById_updateFirst, h]
    all_goals first
    | (exact fun c0 => rfl)
    | simp [hcom]
  · simp only [submitReviewerDecision, addLogEntry, updateCaseStatus, setReviewerComment,
      if_neg hcom]
    rw [getCaseById_updateFirst, getCaseById_updateFirst, getCaseById_updateFirst, h]
    all_goals first
    | (exact fun c0 => rfl)
    | simp [hcom]

/-! Concrete cases used by the closed instances below (field values follow
the seed records of `mock/data.js`, with empty histories for readability). -/

/-- A concrete already-reviewed case. -/
def caseReviewedDemo : Case :=
  { id := "CASE-003", student_id := "cad003", student_name := "Carol Davis",
    course_requested := "CPSC 2100 - Intro to Programming", status := "REVIEWED",
    documents := [], logs := [], reviewer_comment := none }

/-- A concrete case awaiting review. -/
def casePendingDemo : Case :=
  { id := "CASE-001", student_id := "alj001", student_name := "Alice Johnson",
    course_requested := "CPSC 3400 - Data Structures", status := "REVIEW_PENDING",
    documents := [], logs := [], reviewer_comment := none }

/-- A concrete case waiting on more student input. -/
def caseNeedsInfoDemo : Case :=
  { id := "CASE-002", student_id := "bom002", student_name := "Bob Martinez",
    course_requested := "CPSC 4500 - Operating Systems", status := "NEEDS_INFO",
    documents := [{ id := "doc-003", name := "Transfer_Transcript.pdf",
                    uploaded_at := "2025-01-16T09:00:00Z" }],
    logs := [], reviewer_comment := none }

/-- C1 (amended): the store's `updateCaseStatus` validates nothing — when a
case with the id exists, its status is set to the requested value
unconditionally, whatever the current status and whether or not the change is
an edge of the transition table, and no `InvalidTransition` error exists;
when no case matches, the store is returned unchanged with no signal — a
silent no-op. -/
theorem C1_updateCaseStatus_unvalidated (cases : List Case) (caseId newStatus : String) :
    (getCaseById cases caseId = none → updateCaseStatus cases caseId newStatus = cases) ∧
    (∀ c, getCaseById cases caseId = some c →
      getCaseById (updateCaseStatus cases caseId newStatus) caseId
        = some { c with status := newStatus }) := by
  constructor
  · intro h
    exact updateFirst_of_not_found _ _ _ h
  · intro c h
    rw [updateCaseStatus, getCaseById_updateFirst]
    · rw [h]
      rfl
    · exact fun c0 => rfl

/-- C1 counterexample: REVIEWED → UPLOADED is not an edge of the transition
table, yet `updateCaseStatus` performs exactly that change on a reviewed case
and reports no error. -/
theorem C1_counterexample :
    specAllowedTransition "REVIEWED" "UPLOADED" = false ∧
    updateCaseStatus [caseReviewedDemo] "CASE-003" "UPLOADED"
      = [{ caseReviewedDemo with status := "UPLOADED" }] :=
  ⟨rfl, rfl⟩

/-- C4 (amended): an already-reviewed case is protected only in the UI — the
action panel disables its buttons when the shown status is REVIEWED — while
`submitReviewerDecision` itself performs no status-based rejection and has no
override action: a plain deny on a REVIEWED case is recorded as two appended
log entries, every prior entry preserved, with the status written back to
REVIEWED and no `CaseAlreadyReviewed` error anywhere. -/
theorem C4_reviewed_protected_only_in_ui (cases : List Case) (caseId com t1 t2 : String)
    (c : Case) (h : getCaseById cases caseId = some c) (_hrev : c.status = "REVIEWED") :
    isDisabled "REVIEWED" false = true ∧
    ∃ d : Case, (submitReviewerDecision cases caseId "DENY" com t1 t2).2 = some d ∧
      d.status = "REVIEWED" ∧ ∃ e1 e2 : LogEntry, d.logs = c.logs ++ [e1] ++ [e2] := by
  refine ⟨rfl, ?_⟩
  have heq := submitReviewerDecision_found cases caseId "DENY" com t1 t2 c h
  exact ⟨_, heq, rfl, _, _, rfl⟩

/-- C4 counterexample: a deny submitted on a case whose status is already
REVIEWED succeeds — two log entries are appended and the case is returned —
instead of failing with `CaseAlreadyReviewed`. -/
theorem C4_counterexample :
    ((submitReviewerDecision [caseReviewedDemo] "CASE-003" "DENY" "" "t1" "t2").2.map
      (fun d => (d.status, d.logs.length))) = some ("REVIEWED", 2) :=
  rfl

/-- C4 witness: the concrete reviewed case instantiating the amended claim. -/
theorem C4_witness :
    isDisabled "REVIEWED" false = true ∧
    ∃ d : Case, (submitReviewerDecision [caseReviewedDemo] "CASE-003" "DENY" "no" "t1" "t2").2
        = some d ∧
      d.status = "REVIEWED" ∧
      ∃ e1 e2 : LogEntry, d.logs = caseReviewedDemo.logs ++ [e1] ++ [e2] :=
  C4_reviewed_protected_only_in_ui [caseReviewedDemo] "CASE-003" "no" "t1" "t2"
    caseReviewedDemo rfl rfl

/-- Trimming the empty string gives the empty string (evaluation fact used to
relate the trim-based guard to the truthiness test on the raw comment). -/
theorem trim_empty : ("".trim : String) = "" := by
  show ("".toSubstring.trim.toString) = ""
  unfold Substring.trim
  unfold Substring.takeWhileAux Substring.takeRightWhileAux
  simp [String.toSubstring, Substring.toString, String.extract, String.endPos,
    String.utf8ByteSize]

/-- C5: confirming a `REQUEST_INFO` whose comment trims to the empty string
is rejected with the comment-required error before anything is recorded (the
store is handed back untouched); with a comment that does not trim to empty,
the action runs, the case moves to NEEDS_INFO, and that comment is the case's
stored reviewer comment. -/
theorem C5_request_info_comment_gate (cases : List Case) (caseId com t1 t2 : String)
    (c : Case) (h : getCaseById cases caseId = some c) :
    (com.trim = "" →
      confirmReviewerAction cases caseId "REQUEST_INFO" com t1 t2
        = ReviewOutcome.commentRequired cases) ∧
    (com.trim ≠ "" →
      ∃ st d, confirmReviewerAction cases caseId "REQUEST_INFO" com t1 t2
          = ReviewOutcome.acted st (some d) ∧
        d.status = "NEEDS_INFO" ∧ d.reviewer_comment = some com) := by
  constructor
  · intro htrim
    simp [confirmReviewerAction, htrim]
  · intro htrim
    have hcom : com ≠ "" := by
      intro he
      exact htrim (by rw [he]; exact trim_empty)
    have hstep : confirmReviewerAction cases caseId "REQUEST_INFO" com t1 t2
        = ReviewOutcome.acted
            (submitReviewerDecision cases caseId "REQUEST_INFO" com t1 t2).1
            (submitReviewerDecision cases caseId "REQUEST_INFO" com t1 t2).2 := by
      simp [confirmReviewerAction, htrim]
    have heq := submitReviewerDecision_found cases caseId "REQUEST_INFO" com t1 t2 c h
    obtain ⟨d, hd, hds, hdc⟩ :
        ∃ d, (submitReviewerDecision cases caseId "REQUEST_INFO" com t1 t2).2 = some d ∧
          d.status = "NEEDS_INFO" ∧ d.reviewer_comment = some com := by
      refine ⟨_, heq, ?_, ?_⟩
      · rfl
      · simp [hcom]
    exact ⟨(submitReviewerDecision cases caseId "REQUEST_INFO" com t1 t2).1, d,
      by rw [hstep, hd], hds, hdc⟩

/-- C5 witness: the concrete pending case with a non-empty comment. -/
theorem C5_witness :
    (("Need the CS 420 syllabus" : String).trim = "" →
      confirmReviewerAction [casePendingDemo] "CASE-001" "REQUEST_INFO"
          "Need the CS 420 syllabus" "t1" "t2"
        = ReviewOutcome.commentRequired [casePendingDemo]) ∧
    (("Need the CS 420 syllabus" : String).trim ≠ "" →
      ∃ st d, confirmReviewerAction [casePendingDemo] "CASE-001" "REQUEST_INFO"
            "Need the CS 420 syllabus" "t1" "t2"
          = ReviewOutcome.acted st (some d) ∧
        d.status = "NEEDS_INFO" ∧ d.reviewer_comment = some "Need the CS 420 syllabus") :=
  C5_request_info_comment_gate [casePendingDemo] "CASE-001" "Need the CS 420 syllabus"
    "t1" "t2" casePendingDemo rfl

/-- C10 (amended): the store's mutators silently no-op when no case matches
the id — the store is returned unchanged and no error or signal of any kind
is produced; the only not-found signal in the code is on reads, where
`getCaseById` returns null, which `submitAdditionalInfo` passes back to its
caller. -/
theorem C10_missing_case_silent_noop (cases : List Case) (caseId s com : String)
    (entry : LogEntry) (doc : Document) (files : List UploadFile) (now now1 : String)
    (h : getCaseById cases caseId = none) :
    updateCaseStatus cases caseId s = cases ∧
    addLogEntry cases caseId entry = cases ∧
    setReviewerComment cases caseId com = cases ∧
    addDocument cases caseId doc = cases ∧
    (submitAdditionalInfo cases caseId files now now1).2 = none := by
  refine ⟨updateFirst_of_not_found _ _ _ h, updateFirst_of_not_found _ _ _ h,
    updateFirst_of_not_found _ _ _ h, updateFirst_of_not_found _ _ _ h, ?_⟩
  simp only [submitAdditionalInfo, addLogEntry, updateCaseStatus]
  rw [addExtraDocuments_of_not_found _ _ _ _ _ h, updateFirst_of_not_found _ _ _ h,
      updateFirst_of_not_found _ _ _ h, updateFirst_of_not_found _ _ _ h]
  exact h

/-- C10 counterexample: every mutator called with an id no case has returns
the store unchanged and nothing else — indistinguishable from success, with
no not-found error surfaced. -/
theorem C10_counterexample :
    updateCaseStatus [casePendingDemo] "CASE-404" "EXTRACTING" = [casePendingDemo] ∧
    addLogEntry [casePendingDemo] "CASE-404"
        { timestamp := "t", actor := "REVIEWER", action := "APPROVE", message := "m" }
      = [casePendingDemo] ∧
    setReviewerComment [casePendingDemo] "CASE-404" "more info" = [casePendingDemo] ∧
    addDocument [casePendingDemo] "CASE-404"
        { id := "doc-x", name := "extra.pdf", uploaded_at := "t" }
      = [casePendingDemo] :=
  ⟨rfl, rfl, rfl, rfl⟩

/-- C10 witness: the concrete missing-id instance of the amended claim. -/
theorem C10_witness :
    updateCaseStatus [caseReviewedDemo] "CASE-404" "EXTRACTING" = [caseReviewedDemo] ∧
    addLogEntry [caseReviewedDemo] "CASE-404"
        { timestamp := "t", actor := "STUDENT", action := "UPLOAD", message := "m" }
      = [caseReviewedDemo] ∧
    setReviewerComment [caseReviewedDemo] "CASE-404" "hello" = [caseReviewedDemo] ∧
    addDocument [caseReviewedDemo] "CASE-404"
        { id := "doc-y", name := "late.pdf", uploaded_at := "t" }
      = [caseReviewedDemo] ∧
    (submitAdditionalInfo [caseReviewedDemo] "CASE-404"
        [{ name := "late.pdf" }] "t1" "t2").2 = none :=
  C10_missing_case_silent_noop [caseReviewedDemo] "CASE-404" "EXTRACTING" "hello"
    { timestamp := "t", actor := "STUDENT", action := "UPLOAD", message := "m" }
    { id := "doc-y", name := "late.pdf", uploaded_at := "t" }
    [{ name := "late.pdf" }] "t1" "t2" rfl

/-! Freshness of generated identifiers. -/

theorem le_foldl_max_init (l : List Nat) (a : Nat) : a ≤ l.foldl max a := by
  induction l generalizing a with
  | nil => exact Nat.le_refl a
  | cons x xs ih => exact Nat.le_trans (Nat.le_max_left a x) (ih (max a x))

theorem le_foldl_max_of_mem (l : List Nat) (a x : Nat) (hx : x ∈ l) : x ≤ l.foldl max a := by
  induction l generalizing a with
  | nil => cases hx
  | cons y ys ih =>
    cases hx with
    | head => exact Nat.le_trans (Nat.le_max_right a x) (le_foldl_max_init ys (max a x))
    | tail _ hmem => exact ih (max a y) hmem

theorem freshId_not_mem (ids : List Nat) : freshId ids ∉ ids := by
  intro hmem
  have hle := le_foldl_max_of_mem ids 0 (freshId ids) hmem
  simp only [freshId] at hle
  exact absurd hle (by omega)

/-- C7: while a case sits in NEEDS_INFO, re-submitting at least one new
document moves it to EXTRACTING (through the in-repository
`submitAdditionalInfo`) and starts a newly created extraction run whose
identifier differs from every prior run's — the old run is never reused, so
the re-submission has its own audit trail. -/
theorem C7_resubmission_new_run (cases : List Case) (runs : List ExtractionRun)
    (caseId : String) (files : List UploadFile) (now now1 : String) (c : Case)
    (h : getCaseById cases caseId = some c) (_hstat : c.status = "NEEDS_INFO")
    (_hfiles : files ≠ []) :
    (∃ d : Case, ((resubmitWithNewRun cases runs caseId files now now1).1).2 = some d ∧
      d.status = "EXTRACTING" ∧
      d.documents = c.documents ++ mkExtraDocs caseId now files 0) ∧
    ((resubmitWithNewRun cases runs caseId files now now1).2).1
        ∈ ((resubmitWithNewRun cases runs caseId files now now1).2).2 ∧
    ∀ r ∈ runs, r.runId ≠ ((resubmitWithNewRun cases runs caseId files now now1).2).1.runId := by
  refine ⟨⟨_, submitAdditionalInfo_found cases caseId files now now1 c h, rfl, rfl⟩, ?_, ?_⟩
  · simp [resubmitWithNewRun, startExtractionRun]
  · intro r hr heq
    have hfresh := freshId_not_mem (runs.map ExtractionRun.runId)
    simp only [resubmitWithNewRun, startExtractionRun] at heq
    exact hfresh (heq ▸ List.mem_map_of_mem ExtractionRun.runId hr)

/-- C7 witness: the concrete NEEDS_INFO case with one prior run. -/
theorem C7_witness :
    (∃ d : Case, ((resubmitWithNewRun [caseNeedsInfoDemo]
        [{ runId := 1, requestId := "CASE-002", status := "completed" }]
        "CASE-002" [{ name := "CS420_Syllabus.pdf" }] "t1" "t2").1).2 = some d ∧
      d.status = "EXTRACTING" ∧
      d.documents = caseNeedsInfoDemo.documents
        ++ mkExtraDocs "CASE-002" "t1" [{ name := "CS420_Syllabus.pdf" }] 0) ∧
    ((resubmitWithNewRun [caseNeedsInfoDemo]
        [{ runId := 1, requestId := "CASE-002", status := "completed" }]
        "CASE-002" [{ name := "CS420_Syllabus.pdf" }] "t1" "t2").2).1
      ∈ ((resubmitWithNewRun [caseNeedsInfoDemo]
        [{ runId := 1, requestId := "CASE-002", status := "completed" }]
        "CASE-002" [{ name := "CS420_Syllabus.pdf" }] "t1" "t2").2).2 ∧
    ∀ r ∈ [{ runId := 1, requestId := "CASE-002", status := "completed" : ExtractionRun }],
      r.runId ≠ ((resubmitWithNewRun [caseNeedsInfoDemo]
        [{ runId := 1, requestId := "CASE-002", status := "completed" }]
        "CASE-002" [{ name := "CS420_Syllabus.pdf" }] "t1" "t2").2).1.runId :=
  C7_resubmission_new_run [caseNeedsInfoDemo]
    [{ runId := 1, requestId := "CASE-002", status := "completed" }]
    "CASE-002" [{ name := "CS420_Syllabus.pdf" }] "t1" "t2" caseNeedsInfoDemo
    rfl rfl (by simp)

/-! Grounding invariant (C2) and chunk idempotence (C3). -/

theorem mem_insertCitation (citations : List EvidenceCitation) (p q : EvidenceCitation)
    (h : q ∈ citations) : q ∈ insertCitation citations p := by
  unfold insertCitation
  by_cases hp : p ∈ citations
  · simp only [if_pos hp]
    exact h
  · simp [hp, List.mem_append, h]

theorem self_mem_insertCitation (citations : List EvidenceCitation) (p : EvidenceCitation) :
    p ∈ insertCitation citations p := by
  unfold insertCitation
  by_cases hp : p ∈ citations
  · simp only [if_pos hp]
    exact hp
  · simp [hp]

theorem mem_foldl_insertCitation (chunkIds : List String) (acc : List EvidenceCitation)
    (q : EvidenceCitation) (h : q ∈ acc) (eid : Nat) :
    q ∈ chunkIds.foldl (fun a c => insertCitation a { evidenceId := eid, chunkId := c }) acc := by
  induction chunkIds generalizing acc with
  | nil => exact h
  | cons c rest ih => exact ih _ (mem_insertCitation _ _ _ h)

theorem pair_mem_foldl_insertCitation (chunkIds : List String) (acc : List EvidenceCitation)
    (eid : Nat) (c : String) (hc : c ∈ chunkIds) :
    ({ evidenceId := eid, chunkId := c } : EvidenceCitation)
      ∈ chunkIds.foldl (fun a x => insertCitation a { evidenceId := eid, chunkId := x }) acc := by
  induction chunkIds generalizing acc with
  | nil => cases hc
  | cons x rest ih =>
    cases hc with
    | head =>
      exact mem_foldl_insertCitation rest _ _ (self_mem_insertCitation acc _) eid
    | tail _ hmem => exact ih _ hmem

theorem citationsFor_ne_nil_of_mem (st : EvidenceStore) (eid : Nat) (p : EvidenceCitation)
    (hp : p ∈ st.citations) (hid : p.evidenceId = eid) : citationsFor st eid ≠ [] := by
  have hmem : p ∈ st.citations.filter (fun ec => ec.evidenceId == eid) := by
    rw [List.mem_filter]
    exact ⟨hp, by simp [hid]⟩
  simp only [citationsFor]
  intro hnil
  rw [List.map_eq_nil_iff] at hnil
  rw [hnil] at hmem
  cases hmem

/-- C2: the grounding guarantee.  `recordEvidence` called with
`unknown=false` and no chunk ids fails with `UngroundedClaim` and returns no
store (nothing is persisted); and every store reachable by a successful
`recordEvidence` from a store satisfying the grounding invariant satisfies it
again: each stored evidence row is flagged unknown or carries at least one
citation link. -/
theorem C2_grounding_invariant (st : EvidenceStore) (rq : String) (run : Nat)
    (ft : String) (v : Option String) (unk : Bool) (chunkIds : List String)
    (h : groundedInvariant st) :
    recordEvidence st rq run ft v false [] = Except.error "UngroundedClaim" ∧
    (∀ st2 eid, recordEvidence st rq run ft v unk chunkIds = Except.ok (st2, eid) →
      groundedInvariant st2) := by
  constructor
  · rfl
  · intro st2 eid hok
    simp only [recordEvidence] at hok
    by_cases hguard : (!unk && chunkIds.isEmpty) = true
    · rw [if_pos hguard] at hok
      cases hok
    · rw [if_neg hguard] at hok
      cases hok
      intro e he
      rw [List.mem_append] at he
      cases he with
      | inl hold =>
        cases h e hold with
        | inl hunk => exact Or.inl hunk
        | inr hcit =>
          refine Or.inr ?_
          obtain ⟨x, hx⟩ := List.exists_mem_of_ne_nil _ hcit
          simp only [citationsFor] at hx
          rw [List.mem_map] at hx
          obtain ⟨p, hpmem, hpx⟩ := hx
          rw [List.mem_filter] at hpmem
          exact citationsFor_ne_nil_of_mem _ _ p
            (mem_foldl_insertCitation _ _ _ hpmem.1 _) (by simpa using hpmem.2)
      | inr hnew =>
        rw [List.mem_singleton] at hnew
        subst hnew
        by_cases hunk : unk = true
        · exact Or.inl hunk
        · refine Or.inr ?_
          have hne : chunkIds ≠ [] := by
            intro hnil
            apply hguard
            simp [hnil, Bool.eq_false_iff.mpr hunk]
          obtain ⟨c0, hc0⟩ := List.exists_mem_of_ne_nil _ hne
          exact citationsFor_ne_nil_of_mem _ _ _
            (pair_mem_foldl_insertCitation chunkIds st.citations _ c0 hc0) rfl

/-- C2 witness: the empty store satisfies the invariant; recording an
ungrounded fact on it fails, and every successful record preserves the
invariant. -/
theorem C2_witness :
    recordEvidence { evidence := [], citations := [] } "REQ-1" 1 "credits"
        (some "3") false [] = Except.error "UngroundedClaim" ∧
    (∀ st2 eid, recordEvidence { evidence := [], citations := [] } "REQ-1" 1 "credits"
        (some "3") false ["chunk-a"] = Except.ok (st2, eid) → groundedInvariant st2) :=
  C2_grounding_invariant { evidence := [], citations := [] } "REQ-1" 1 "credits"
    (some "3") false ["chunk-a"] (fun e he => absurd he (List.not_mem_nil e))

/-- C3: `recordChunk` is idempotent — a second call with the identical
(document, run, page, span, text) returns the same content-derived
identifier and leaves the table exactly as the first call left it; when the
chunk was not already stored, exactly one row with that identifier exists
afterwards, not two. -/
theorem C3_recordChunk_idempotent (chunks : List ChunkRow) (docId : String) (runId : Nat)
    (pageNum spanStart spanEnd : Nat) (text : String) :
    (recordChunk (recordChunk chunks docId runId pageNum spanStart spanEnd text).1
        docId runId pageNum spanStart spanEnd text).2
      = (recordChunk chunks docId runId pageNum spanStart spanEnd text).2 ∧
    (recordChunk (recordChunk chunks docId runId pageNum spanStart spanEnd text).1
        docId runId pageNum spanStart spanEnd text).1
      = (recordChunk chunks docId runId pageNum spanStart spanEnd text).1 ∧
    ((chunks.filter (fun r =>
        r.chunkShaId == chunkShaId docId runId spanStart spanEnd text)).length = 0 →
      (((recordChunk (recordChunk chunks docId runId pageNum spanStart spanEnd text).1
          docId runId pageNum spanStart spanEnd text).1).filter (fun r =>
            r.chunkShaId == chunkShaId docId runId spanStart spanEnd text)).length = 1) := by
  have hpresent : ((recordChunk chunks docId runId pageNum spanStart spanEnd text).1).any
      (fun r => r.chunkShaId == chunkShaId docId runId spanStart spanEnd text) = true := by
    simp only [recordChunk]
    by_cases hany : chunks.any
        (fun r => r.chunkShaId == chunkShaId docId runId spanStart spanEnd text) = true
    · rw [if_pos hany]
      exact hany
    · rw [if_neg hany]
      simp
  have hsecond : (recordChunk (recordChunk chunks docId runId pageNum spanStart spanEnd text).1
      docId runId pageNum spanStart spanEnd text)
        = ((recordChunk chunks docId runId pageNum spanStart spanEnd text).1,
           chunkShaId docId runId spanStart spanEnd text) := by
    rw [recordChunk, if_pos hpresent]
  refine ⟨?_, ?_, ?_⟩
  · rw [hsecond]
    simp only [recordChunk]
    by_cases hany : chunks.any
        (fun r => r.chunkShaId == chunkShaId docId runId spanStart spanEnd text) = true
    · rw [if_pos hany]
    · rw [if_neg hany]
  · rw [hsecond]
  · intro hzero
    have hnone : ∀ r ∈ chunks,
        ¬(r.chunkShaId == chunkShaId docId runId spanStart spanEnd text) = true := by
      rw [List.length_eq_zero] at hzero
      intro r hr hbeq
      have : r ∈ chunks.filter (fun x =>
          x.chunkShaId == chunkShaId docId runId spanStart spanEnd text) :=
        List.mem_filter.mpr ⟨hr, hbeq⟩
      rw [hzero] at this
      cases this
    have hany : chunks.any
        (fun r => r.chunkShaId == chunkShaId docId runId spanStart spanEnd text) = false := by
      rw [List.any_eq_false]
      exact hnone
    rw [hsecond]
    simp only [recordChunk, hany]
    rw [if_neg (by simp [hany])]
    rw [List.filter_append]
    have hfil : chunks.filter (fun r =>
        r.chunkShaId == chunkShaId docId runId spanStart spanEnd text) = [] := by
      rw [List.filter_eq_nil_iff]
      exact hnone
    rw [hfil]
    simp

/-! The latest-approve-or-deny derivation (C6). -/

theorem foldl_keep_last {α : Type} (p : α → Bool) (l : List α) (acc : Option α) :
    l.foldl (fun b a => if p a then some a else b) acc
      = match l.reverse.find? p with
        | some x => some x
        | none => acc := by
  induction l generalizing acc with
  | nil => rfl
  | cons x xs ih =>
    rw [List.foldl_cons, ih]
    rw [List.reverse_cons, List.find?_append]
    cases hfind : xs.reverse.find? p with
    | some y => simp
    | none =>
      cases hx : p x with
      | true => simp [List.find?, hx]
      | false => simp [List.find?, hx]

/-- The spec's scan-in-creation-order-keep-last derivation agrees with the
code's reverse-then-find derivation. -/
theorem specLastDecision_eq_latest (l : List ReviewActionRec) :
    specLastDecision l = latestMatching isDecisionAction l := by
  rw [specLastDecision, latestMatching, foldl_keep_last]
  cases h : l.reverse.find? isDecisionAction <;> simp

theorem find?_map_eq {α : Type} (f : α → α) (p : α → Bool) (l : List α)
    (hp : ∀ x, p (f x) = p x) :
    (l.map f).find? p = (l.find? p).map f := by
  induction l with
  | nil => rfl
  | cons x xs ih =>
    simp only [List.map_cons]
    cases hx : p x with
    | true =>
      rw [List.find?_cons_of_pos _ (by rw [hp x]; exact hx), List.find?_cons_of_pos _ hx]
      rfl
    | false =>
      rw [List.find?_cons_of_neg _ (by simp [hp x, hx]), List.find?_cons_of_neg _ (by simp [hx])]
      exact ih

/-- Reassign every review action's timestamp (only `createdAt` changes);
used to state that the display derivation never reads timestamps. -/
def retimeActions (data : CaseDetailInput) (g : ReviewActionRec → String) : CaseDetailInput :=
  { data with auditLog := data.auditLog.map (fun al =>
      { al with reviewActions := al.reviewActions.map (fun a => { a with createdAt := g a }) }) }

theorem retime_reviewActions (data : CaseDetailInput) (g : ReviewActionRec → String) :
    ((retimeActions data g).auditLog.map AuditLog.reviewActions).getD []
      = (((data.auditLog.map AuditLog.reviewActions).getD []).map
          (fun a => { a with createdAt := g a })) := by
  cases h : data.auditLog with
  | none => simp [retimeActions, h]
  | some al => simp [retimeActions, h]

theorem retime_latestMatching (ra : List ReviewActionRec) (g : ReviewActionRec → String) :
    latestMatching isDecisionAction (ra.map (fun a => { a with createdAt := g a }))
      = (latestMatching isDecisionAction ra).map (fun a => { a with createdAt := g a }) := by
  simp only [latestMatching]
  rw [← List.map_reverse]
  exact find?_map_eq _ _ _ (fun x => rfl)

theorem mapCaseDetail_status_of_reviewed (data : CaseDetailInput) (a : ReviewActionRec)
    (hrev : data.theCase.status = "REVIEWED")
    (hfind : latestMatching isDecisionAction
      ((data.auditLog.map AuditLog.reviewActions).getD []) = some a) :
    (mapCaseDetail data).status = (if a.action == "approve" then "APPROVED" else "DENIED") := by
  simp only [mapCaseDetail, hfind, hrev]
  cases hx : a.action == "approve" with
  | true => simp [hx]
  | false => simp [hx]

/-- C6: for a case stored as REVIEWED with at least one approve-or-deny
review action, the read model's displayed status is APPROVED or DENIED
derived from the ledger by taking the last approve-or-deny entry in
creation (insertion) order — the spec-worded scan agrees with the code's
derivation, the surfaced `reviewerDecision` is that entry's action, and the
result is invariant under arbitrary reassignment of every action's
timestamp, so ties between equal timestamps are broken by insertion order
alone and no stored display label is consulted. -/
theorem C6_reviewed_display_derived (data : CaseDetailInput) (a : ReviewActionRec)
    (hrev : data.theCase.status = "REVIEWED")
    (hlast : specLastDecision ((data.auditLog.map AuditLog.reviewActions).getD [])
      = some a) :
    (mapCaseDetail data).status = (if a.action == "approve" then "APPROVED" else "DENIED") ∧
    (mapCaseDetail data).reviewerDecision = some a.action ∧
    ∀ g : ReviewActionRec → String,
      (mapCaseDetail (retimeActions data g)).status = (mapCaseDetail data).status := by
  have hfind : latestMatching isDecisionAction
      ((data.auditLog.map AuditLog.reviewActions).getD []) = some a := by
    rw [← specLastDecision_eq_latest]
    exact hlast
  have hdec : isDecisionAction a = true := by
    have := List.find?_some hfind
    exact this
  have hne : a.action ≠ "" := by
    rw [isDecisionAction, Bool.or_eq_true] at hdec
    cases hdec with
    | inl h1 => rw [eq_of_beq h1]; decide
    | inr h2 => rw [eq_of_beq h2]; decide
  refine ⟨mapCaseDetail_status_of_reviewed data a hrev hfind, ?_, ?_⟩
  · simp [mapCaseDetail, hfind, orNull, hne]
  · intro g
    have hrev2 : (retimeActions data g).theCase.status = "REVIEWED" := hrev
    have hfind2 : latestMatching isDecisionAction
        (((retimeActions data g).auditLog.map AuditLog.reviewActions).getD [])
          = some { a with createdAt := g a } := by
      rw [retime_reviewActions, retime_latestMatching, hfind]
      rfl
    rw [mapCaseDetail_status_of_reviewed _ _ hrev2 hfind2,
        mapCaseDetail_status_of_reviewed data a hrev hfind]

/-- The second (final in insertion order) review action of the C6 witness;
it shares its timestamp with the earlier approve. -/
def c6DenyAction : ReviewActionRec :=
  { createdAt := "2025-01-11T09:00:00Z", action := "deny", comment := "second thoughts" }

/-- The C6 witness payload: a REVIEWED case whose ledger holds an approve and
then a deny with the identical timestamp. -/
def c6DemoInput : CaseDetailInput :=
  { theCase := { caseId := "CASE-003", studentId := "cad003", studentName := "Carol Davis",
                 courseRequested := "CPSC 2100 - Intro to Programming", status := "REVIEWED",
                 createdAt := "2025-01-10T14:00:00Z", updatedAt := "2025-01-11T09:00:01Z" }
    documents := []
    decisionPacket := none
    auditLog := some
      { extractionRuns := []
        decisionRuns := []
        reviewActions :=
          [{ createdAt := "2025-01-11T09:00:00Z", action := "approve", comment := "ok" },
           c6DenyAction] } }

/-- C6 witness: with an approve and a deny sharing one timestamp, the display
derives from the later-inserted deny. -/
theorem C6_witness :
    (mapCaseDetail c6DemoInput).status
      = (if c6DenyAction.action == "approve" then "APPROVED" else "DENIED") ∧
    (mapCaseDetail c6DemoInput).reviewerDecision = some c6DenyAction.action ∧
    ∀ g : ReviewActionRec → String,
      (mapCaseDetail (retimeActions c6DemoInput g)).status = (mapCaseDetail c6DemoInput).status :=
  C6_reviewed_display_derived c6DemoInput c6DenyAction rfl rfl

/-! PDF-only uploads (C8). -/

theorem mkCaseDocuments_names (caseId now : String) (files : List UploadFile) (i : Nat) :
    ∀ d ∈ mkCaseDocuments caseId now files i, ∃ f ∈ files, d.name = f.name := by
  induction files generalizing i with
  | nil => intro d hd; cases hd
  | cons f rest ih =>
    intro d hd
    rcases List.mem_cons.mp hd with h | h
    · exact ⟨f, List.mem_cons_self f rest, by rw [h]⟩
    · obtain ⟨f0, hf0, hname⟩ := ih (i + 1) d h
      exact ⟨f0, List.mem_cons_of_mem f hf0, hname⟩

/-- C8: both upload paths reject non-PDF files before anything is persisted.
The new-case page stages only files whose name ends in `.pdf` and raises the
client-visible error whenever any file was rejected; the additional-info
page clears the whole selection and raises the error when any selected file
is not a PDF; and a case created from PDF-only staged files holds only
documents with PDF names — so no document record with a non-PDF name is ever
accepted through either path. -/
theorem C8_pdf_only_uploads (fileList : List UploadFile) (cases : List Case)
    (studentId studentName courseRequested now : String) :
    (∀ f ∈ (validateAndAddFiles fileList).1, isPdfName f.name = true) ∧
    ((∃ f ∈ fileList, isPdfName f.name = false) →
      ((validateAndAddFiles fileList).2).isSome = true) ∧
    (∀ f ∈ (additionalUploadOnChange fileList).1, isPdfName f.name = true) ∧
    ((∃ f ∈ fileList, isPdfName f.name = false) →
      (additionalUploadOnChange fileList).1 = [] ∧
      ((additionalUploadOnChange fileList).2).isSome = true) ∧
    (∀ staged : List UploadFile, (∀ f ∈ staged, isPdfName f.name = true) →
      ∀ d ∈ (submitNewCase cases studentId studentName courseRequested staged now).2.documents,
        isPdfName d.name = true) := by
  have hinv : (∃ f ∈ fileList, isPdfName f.name = false) →
      0 < (fileList.filter (fun f => !isPdfName f.name)).length := by
    intro hex
    obtain ⟨f, hf, hnp⟩ := hex
    have : f ∈ fileList.filter (fun f => !isPdfName f.name) :=
      List.mem_filter.mpr ⟨hf, by simp [hnp]⟩
    exact List.length_pos.mpr (List.ne_nil_of_mem this)
  refine ⟨?_, ?_, ?_, ?_, ?_⟩
  · intro f hf
    exact (List.mem_filter.mp hf).2
  · intro hex
    simp only [validateAndAddFiles]
    rw [if_pos (hinv hex)]
    rfl
  · intro f hf
    simp only [additionalUploadOnChange] at hf
    by_cases hc : 0 < (fileList.filter (fun f => !isPdfName f.name)).length
    · rw [if_pos hc] at hf
      cases hf
    · rw [if_neg hc] at hf
      have hnil : fileList.filter (fun f => !isPdfName f.name) = [] := by
        cases hx : fileList.filter (fun f => !isPdfName f.name) with
        | nil => rfl
        | cons y ys => exact absurd (by rw [hx]; simp) hc
      rw [List.filter_eq_nil_iff] at hnil
      have := hnil f hf
      simp only [Bool.not_eq_true'] at this
      cases hp : isPdfName f.name with
      | true => rfl
      | false => exact absurd hp (by simp [this])
  · intro hex
    simp only [additionalUploadOnChange]
    rw [if_pos (hinv hex)]
    exact ⟨rfl, rfl⟩
  · intro staged hstaged d hd
    obtain ⟨f, hf, hname⟩ := mkCaseDocuments_names _ now staged 0 d hd
    rw [hname]
    exact hstaged f hf

/-! The status value set (C9). -/

/-- A backend case carrying the misspelled recommendation status observed in
the source data. -/
def backendAiCase : BackendCase :=
  { caseId := "CASE-100", studentId := "stu-1", studentName := "Status Probe",
    courseRequested := "CPSC 4600 - Database Systems",
    status := "AI_RECOMMMENDATION", createdAt := "t0", updatedAt := "t1" }

/-- C9 counterexample: the fetch-backed read mapper turns the unrecognized,
misspelled status `AI_RECOMMMENDATION` into the recognized
`AI_RECOMMENDATION` on read — normalization, not rejection — and the seed
store of the mock data carries the unrecognized status `DECIDED`. -/
theorem C9_counterexample :
    (mapCaseOut backendAiCase).status = "AI_RECOMMENDATION" ∧
    backendAiCase.status ≠ "AI_RECOMMENDATION" ∧
    specClosedStatus "DECIDED" = false ∧
    ("CASE-006", "DECIDED") ∈ mockCaseStatuses :=
  ⟨rfl, by decide, rfl, by decide⟩

/-- C9 (amended): the database boundary does enforce the closed status set —
the schema's CHECK accepts exactly the seven lowercase status spellings —
but the frontend store pushes any case without inspecting its status (the
seed data includes DECIDED), and the read mapper, which passes every
recognized status through unchanged, normalizes the misspelled
`AI_RECOMMMENDATION` into `AI_RECOMMENDATION` on read instead of rejecting
it. -/
theorem C9_closed_set_only_at_schema :
    (∀ s : String, requestsStatusCheck s = true ↔
      s = "uploaded" ∨ s = "extracting" ∨ s = "ready_for_decision" ∨ s = "needs_info"
        ∨ s = "ai_recommendation" ∨ s = "review_pending" ∨ s = "reviewed") ∧
    (∀ c : BackendCase, specClosedStatus c.status = true → (mapCaseOut c).status = c.status) ∧
    (∀ c : BackendCase, c.status = "AI_RECOMMMENDATION" →
      (mapCaseOut c).status = "AI_RECOMMENDATION") ∧
    (∀ (cases : List Case) (nc : Case), nc ∈ createCase cases nc) := by
  refine ⟨?_, ?_, ?_, ?_⟩
  · intro s
    simp [requestsStatusCheck, or_assoc]
  · intro c h
    simp only [specClosedStatus, Bool.or_eq_true, beq_iff_eq, or_assoc] at h
    have hne : (c.status == "AI_RECOMMMENDATION") = false := by
      rcases h with h | h | h | h | h | h | h <;> rw [h] <;> decide
    simp [mapCaseOut, hne]
  · intro c h
    simp [mapCaseOut, h]
  · intro cases nc
    exact List.mem_append.mpr (Or.inr (List.mem_singleton.mpr rfl))

end CourseEq
